/-
  Verification of the study-buddy backend's business logic.

  Shallow embedding of the learning-plan / quiz-scoring / gamification
  services (learning-plans.service.ts, gamification.service.ts) into Lean.
  JavaScript numbers are modelled as rationals (with a separate marker for
  the non-finite values NaN and ±Infinity where the code tests finiteness);
  Math.round is floor(x + 1/2), matching ECMAScript's round-half-up.
-/
import Mathlib

namespace StudyBuddy

/-- ECMAScript Math.round: round half toward positive infinity.
    Rat.floor is Mathlib's computable floor on the rationals. -/
def jsRound (q : ℚ) : Int := Rat.floor (q + 1/2)

theorem ratFloor_eq (q : ℚ) : Rat.floor q = Int.floor q := by
  rw [Rat.floor_def' q, Rat.floor_def]

theorem jsRound_eq (q : ℚ) : jsRound q = Int.floor (q + 1/2) := ratFloor_eq _

/-- A JavaScript number as far as clampDuration observes it: either a
    finite value (modelled as a rational) or a non-finite value
    (NaN, Infinity, -Infinity), which Number.isFinite rejects. -/
inductive JsNumber where
  | finite (q : ℚ)
  | nonfinite
deriving DecidableEq, Repr

/-- The difficulty-indexed duration ranges of clampDuration:
    `ranges[difficulty] ?? ranges.intermediate`. -/
def durationRange (difficulty : String) : Int × Int :=
  if difficulty = "beginner" then (30, 60)
  else if difficulty = "intermediate" then (60, 90)
  else if difficulty = "advanced" then (90, 150)
  else (60, 90)

/-- learning-plans.service.ts clampDuration: non-finite input maps to the
    range minimum; otherwise Math.min(Math.max(Math.round(value), min), max). -/
def clampDuration (value : JsNumber) (difficulty : String) : Int :=
  let lo := (durationRange difficulty).1
  let hi := (durationRange difficulty).2
  match value with
  | .nonfinite => lo
  | .finite q => min (max (jsRound q) lo) hi

theorem durationRange_le (d : String) :
    (durationRange d).1 ≤ (durationRange d).2 := by
  unfold durationRange
  split
  · decide
  · split
    · decide
    · split
      · decide
      · decide

/-- C5: every clamped duration lands inside the difficulty-dependent range
    (beginner 30–60, intermediate 60–90, advanced 90–150; unknown
    difficulties fall back to the intermediate range), non-finite values
    included; duration 5 at difficulty "advanced" becomes 90 and duration
    9999 at difficulty "beginner" becomes 60. -/
theorem c5_clamp_duration_spec :
    (∀ (v : JsNumber) (d : String),
      (durationRange d).1 ≤ clampDuration v d ∧
      clampDuration v d ≤ (durationRange d).2) ∧
    clampDuration (.finite 5) "advanced" = 90 ∧
    clampDuration (.finite 9999) "beginner" = 60 := by
  refine ⟨fun v d => ?_,
    by simp +decide only [clampDuration, durationRange]; rw [jsRound_eq]; norm_num,
    by simp +decide only [clampDuration, durationRange]; rw [jsRound_eq]; norm_num⟩
  cases v with
  | nonfinite => exact ⟨le_refl _, durationRange_le d⟩
  | finite q =>
      exact ⟨le_min (le_max_right _ _) (durationRange_le d), min_le_right _ _⟩

/-- Whitespace as stripped by JavaScript String.prototype.trim, restricted
    to the ASCII range (space, tab, line feed, carriage return, vertical
    tab, form feed); the non-ASCII whitespace code points never occur in
    the data handled here. -/
def jsWhitespaceChar (c : Char) : Bool :=
  c = ' ' || c = '\t' || c = '\n' || c = '\r' ||
  c = Char.ofNat 11 || c = Char.ofNat 12

/-- JavaScript String.prototype.trim on a character list. -/
def jsTrimList (cs : List Char) : List Char :=
  ((cs.dropWhile jsWhitespaceChar).reverse.dropWhile jsWhitespaceChar).reverse

/-- JavaScript String.prototype.trim. -/
def jsTrim (s : String) : String := String.mk (jsTrimList s.toList)

/-- ASCII lowercasing of one character, the fragment of
    String.prototype.toLowerCase exercised by the code. -/
def asciiToLower (c : Char) : Char :=
  if 'A' ≤ c ∧ c ≤ 'Z' then Char.ofNat (c.toNat + 32) else c

/-- JavaScript String.prototype.toLowerCase (ASCII fragment). -/
def jsToLower (s : String) : String := String.mk (s.toList.map asciiToLower)

/-- A quiz question row: id, type discriminator, stored correct answer and
    point value. -/
structure QuizQuestion where
  id : String
  qtype : String
  correctAnswer : String
  points : Int
deriving DecidableEq, Repr

/-- learning-plans.service.ts checkAnswer: lowercase and trim both the
    stored correct answer and the user answer, then compare exactly;
    multiple_choice, true_false and short_answer all use the same
    comparison, any other type is judged incorrect. -/
def checkAnswer (question : QuizQuestion) (userAnswer : String) : Bool :=
  let correct := jsTrim (jsToLower question.correctAnswer)
  let userAns := jsTrim (jsToLower userAnswer)
  if question.qtype = "multiple_choice" ∨ question.qtype = "true_false" then
    correct == userAns
  else if question.qtype = "short_answer" then
    correct == userAns
  else
    false

/-- C8: for each of the three question types, a submitted answer is judged
    correct exactly when it equals the stored correct answer after
    lowercasing and trimming both sides; in particular "Paris", " paris "
    and "PARIS" all match a stored correct answer "Paris". -/
theorem c8_check_answer_spec :
    (∀ (q : QuizQuestion) (ans : String),
      (q.qtype = "multiple_choice" ∨ q.qtype = "true_false" ∨
        q.qtype = "short_answer") →
      (checkAnswer q ans = true ↔
        jsTrim (jsToLower q.correctAnswer) = jsTrim (jsToLower ans))) ∧
    checkAnswer ⟨"q1", "short_answer", "Paris", 1⟩ "Paris" = true ∧
    checkAnswer ⟨"q1", "short_answer", "Paris", 1⟩ " paris " = true ∧
    checkAnswer ⟨"q1", "short_answer", "Paris", 1⟩ "PARIS" = true := by
  refine ⟨fun q ans h => ?_, by decide, by decide, by decide⟩
  rcases h with h | h | h <;>
    simp [checkAnswer, h]

/-- Milliseconds per day, the unit used by the streak computation. -/
def msPerDay : Int := 86400000

/-- Date with time-of-day stripped (setHours(0,0,0,0)), modelled as
    flooring a millisecond timestamp to the enclosing day boundary. -/
def stripTime (t : Int) : Int := msPerDay * Int.fdiv t msPerDay

/-- gamification.service.ts updateStreak, streak-counter core: compares the
    day-floored last-activity date against the day-floored current time and
    returns the new streak count. -/
def computeNewStreak (lastActivityDate : Option Int) (now : Int)
    (streakCount : Int) : Int :=
  let today := stripTime now
  match lastActivityDate with
  | none => 1
  | some t =>
      let lastActivity := stripTime t
      if lastActivity < today - msPerDay then 1
      else if lastActivity = today - msPerDay then streakCount + 1
      else if lastActivity = today then streakCount
      else 1

/-- C2: with the time-of-day stripped, a last activity exactly one day
    before today increments the streak by 1, the same day leaves it
    unchanged, and every other case (absent, more than one day earlier,
    or in the future) resets it to 1. -/
theorem c2_update_streak_spec :
    (∀ (now streak : Int), computeNewStreak none now streak = 1) ∧
    (∀ (t now streak : Int), stripTime t = stripTime now - msPerDay →
      computeNewStreak (some t) now streak = streak + 1) ∧
    (∀ (t now streak : Int), stripTime t = stripTime now →
      computeNewStreak (some t) now streak = streak) ∧
    (∀ (t now streak : Int), stripTime t < stripTime now - msPerDay →
      computeNewStreak (some t) now streak = 1) ∧
    (∀ (t now streak : Int), stripTime now < stripTime t →
      computeNewStreak (some t) now streak = 1) := by
  refine ⟨fun now streak => rfl, fun t now streak h => ?_,
    fun t now streak h => ?_, fun t now streak h => ?_,
    fun t now streak h => ?_⟩ <;>
  · simp only [computeNewStreak, msPerDay] at h ⊢
    generalize hA : stripTime t = a at h ⊢
    generalize hB : stripTime now = b at h ⊢
    split_ifs <;> omega

/-- Witness for C2: last activity at the previous day boundary, now one day
    and five milliseconds later, streak 3 becomes 4. -/
theorem c2_update_streak_spec_witness :
    computeNewStreak (some 86400000) (2 * 86400000 + 5) 3 = 3 + 1 :=
  c2_update_streak_spec.2.1 86400000 (2 * 86400000 + 5) 3 (by decide)

/-- Witness for C8: a short-answer question judged by the trimmed,
    lowercased comparison. -/
theorem c8_check_answer_spec_witness :
    checkAnswer ⟨"q2", "true_false", "True", 1⟩ " TRUE" = true :=
  (c8_check_answer_spec.1 ⟨"q2", "true_false", "True", 1⟩ " TRUE"
    (Or.inr (Or.inl rfl))).mpr (by decide)

/-- One submitted answer of a quiz attempt: target question id and the
    answer text. -/
structure UserAnswer where
  questionId : String
  answer : String
deriving DecidableEq, Repr

/-- One persisted answer record of a quiz attempt. -/
structure AnswerRecord where
  questionId : String
  answer : String
  isCorrect : Bool
  points : Int
deriving DecidableEq, Repr

/-- A quiz with its questions and passing threshold. -/
structure Quiz where
  questions : List QuizQuestion
  passingScore : Int
deriving Repr

/-- Result of submitQuizAttempt as far as the scoring logic determines it. -/
structure AttemptResult where
  score : Int
  isPassed : Bool
  answers : List AnswerRecord
deriving DecidableEq, Repr

/-- One iteration of the submitQuizAttempt scoring loop: look up the
    question by id; skip the answer when none matches, otherwise add the
    question's points to the total, the earned points when correct, and
    push an answer record. -/
def scoreStep (questions : List QuizQuestion)
    (acc : Int × Int × List AnswerRecord) (userAnswer : UserAnswer) :
    Int × Int × List AnswerRecord :=
  match questions.find? (fun q => q.id == userAnswer.questionId) with
  | none => acc
  | some question =>
      let isCorrect := checkAnswer question userAnswer.answer
      let pts := if isCorrect then question.points else 0
      (acc.1 + question.points, acc.2.1 + pts,
        acc.2.2 ++ [⟨question.id, userAnswer.answer, isCorrect, pts⟩])

/-- learning-plans.service.ts submitQuizAttempt, scoring core: run the
    loop over the submitted answers, then
    score = round((earned / total) * 100) when total > 0 else 0, and
    isPassed = score >= passingScore. -/
def submitQuizAttempt (quiz : Quiz) (answers : List UserAnswer) :
    AttemptResult :=
  let r := answers.foldl (scoreStep quiz.questions) (0, 0, [])
  let totalPoints := r.1
  let earnedPoints := r.2.1
  let score : Int :=
    if totalPoints > 0
    then jsRound ((earnedPoints : ℚ) / (totalPoints : ℚ) * 100)
    else 0
  { score := score
    isPassed := decide (score ≥ quiz.passingScore)
    answers := r.2.2 }

/-- The answer records of an attempt, described directly: one record per
    submitted answer whose questionId matches a question of the quiz. -/
def specRecords (qs : List QuizQuestion) (answers : List UserAnswer) :
    List AnswerRecord :=
  answers.filterMap fun a =>
    (qs.find? (fun q => q.id == a.questionId)).map fun q =>
      ⟨q.id, a.answer, checkAnswer q a.answer,
        if checkAnswer q a.answer then q.points else 0⟩

/-- Total points, summed only over submitted answers whose questionId
    matches a question of the quiz. -/
def specTotalPoints (qs : List QuizQuestion) (answers : List UserAnswer) :
    Int :=
  ((answers.filterMap fun a =>
      qs.find? (fun q => q.id == a.questionId)).map QuizQuestion.points).sum

/-- Earned points, summed only over matched answers. -/
def specEarnedPoints (qs : List QuizQuestion) (answers : List UserAnswer) :
    Int :=
  ((specRecords qs answers).map AnswerRecord.points).sum

theorem foldl_scoreStep (qs : List QuizQuestion) :
    ∀ (answers : List UserAnswer) (acc : Int × Int × List AnswerRecord),
      answers.foldl (scoreStep qs) acc =
        (acc.1 + specTotalPoints qs answers,
         acc.2.1 + specEarnedPoints qs answers,
         acc.2.2 ++ specRecords qs answers) := by
  intro answers
  induction answers with
  | nil =>
      intro acc
      simp [specTotalPoints, specEarnedPoints, specRecords]
  | cons a rest ih =>
      intro acc
      simp only [List.foldl_cons]
      rw [ih]
      cases h : qs.find? (fun q => q.id == a.questionId) with
      | none =>
          simp [scoreStep, h, specTotalPoints, specEarnedPoints,
            specRecords, List.filterMap_cons]
      | some q =>
          simp only [scoreStep, h, specTotalPoints, specEarnedPoints,
            specRecords, List.filterMap_cons, Option.map_some',
            Option.map_some, List.map_cons, List.sum_cons, Prod.mk.injEq]
          refine ⟨by ring, by ring, by simp⟩

/-- C1: the attempt's score is round(100 * earned / total) over the
    matched answers, 0 when the matched total is 0, and isPassed holds
    exactly when the score reaches the quiz's passingScore. -/
theorem c1_submit_quiz_attempt_spec (quiz : Quiz)
    (answers : List UserAnswer) :
    (submitQuizAttempt quiz answers).score =
      (if 0 < specTotalPoints quiz.questions answers
       then jsRound
         (100 * (specEarnedPoints quiz.questions answers : ℚ) /
           (specTotalPoints quiz.questions answers : ℚ))
       else 0) ∧
    ((submitQuizAttempt quiz answers).isPassed = true ↔
      quiz.passingScore ≤ (submitQuizAttempt quiz answers).score) := by
  constructor
  · simp only [submitQuizAttempt, foldl_scoreStep]
    have harg : ∀ e t : ℚ, e / t * 100 = 100 * e / t := by
      intro e t; ring
    simp [harg]
  · simp [submitQuizAttempt]

/-- C10: an answer matching no question of the quiz is skipped entirely
    (removing it changes nothing); an attempt none of whose answers match
    scores 0, persists no answer records, and is passed exactly when the
    quiz's passingScore is 0 or less. -/
theorem c10_unmatched_answers_spec :
    (∀ (quiz : Quiz) (before after : List UserAnswer) (a : UserAnswer),
      quiz.questions.find? (fun q => q.id == a.questionId) = none →
      submitQuizAttempt quiz (before ++ a :: after) =
        submitQuizAttempt quiz (before ++ after)) ∧
    (∀ (quiz : Quiz) (answers : List UserAnswer),
      (∀ a ∈ answers,
        quiz.questions.find? (fun q => q.id == a.questionId) = none) →
      (submitQuizAttempt quiz answers).score = 0 ∧
      (submitQuizAttempt quiz answers).answers = [] ∧
      ((submitQuizAttempt quiz answers).isPassed = true ↔
        quiz.passingScore ≤ 0)) := by
  constructor
  · intro quiz before after a h
    simp [submitQuizAttempt, List.foldl_append, List.foldl_cons, scoreStep, h]
  · intro quiz answers h
    have hrec : specRecords quiz.questions answers = [] := by
      simp only [specRecords, List.filterMap_eq_nil_iff]
      intro a ha
      simp [h a ha]
    have htot : specTotalPoints quiz.questions answers = 0 := by
      have : (answers.filterMap fun a =>
          quiz.questions.find? (fun q => q.id == a.questionId)) = [] := by
        simp only [List.filterMap_eq_nil_iff]
        intro a ha
        simp [h a ha]
      simp [specTotalPoints, this]
    simp [submitQuizAttempt, foldl_scoreStep, htot, hrec]

/-- Witness for C10: a quiz with one question and a single answer aimed at
    a different question id scores 0 with no records, and passes because
    the passing score is 0. -/
theorem c10_unmatched_answers_spec_witness :
    (submitQuizAttempt ⟨[⟨"q1", "short_answer", "Paris", 2⟩], 0⟩
        [⟨"zzz", "Paris"⟩]).score = 0 ∧
    (submitQuizAttempt ⟨[⟨"q1", "short_answer", "Paris", 2⟩], 0⟩
        [⟨"zzz", "Paris"⟩]).answers = [] ∧
    ((submitQuizAttempt ⟨[⟨"q1", "short_answer", "Paris", 2⟩], 0⟩
        [⟨"zzz", "Paris"⟩]).isPassed = true ↔ (0 : Int) ≤ 0) :=
  c10_unmatched_answers_spec.2 ⟨[⟨"q1", "short_answer", "Paris", 2⟩], 0⟩
    [⟨"zzz", "Paris"⟩] (by decide)

/-- A course as the milestone-progress logic sees it. -/
structure MCourse where
  id : String
  isCompleted : Bool
deriving DecidableEq, Repr

/-- A learning-plan milestone with its child courses. -/
structure Milestone where
  id : String
  isCompleted : Bool
  courses : List MCourse
deriving DecidableEq, Repr

/-- A learning plan: its milestones and its stored progress percentage. -/
structure Plan where
  milestones : List Milestone
  progress : Int
deriving DecidableEq, Repr

/-- learning-plans.service.ts calculateProgress: 0 for an empty milestone
    list, otherwise Math.round((completedCount / milestones.length) * 100). -/
def calculateProgress (milestones : List Milestone) : Int :=
  if milestones.length = 0 then 0
  else jsRound
    (((milestones.filter fun m => m.isCompleted).length : ℚ) /
      (milestones.length : ℚ) * 100)

/-- learning-plans.service.ts updatePlanProgress: re-read all milestones of
    the plan, recompute the percentage from scratch and write it back. -/
def updatePlanProgress (p : Plan) : Plan :=
  { p with progress := calculateProgress p.milestones }

/-- The part of UpdateMilestoneDto that interacts with completion and
    progress; the remaining DTO fields (title, description, subjectId,
    orderIndex) touch neither the completion flag nor the progress. -/
structure UpdateMilestoneDto where
  isCompleted : Option Bool
deriving DecidableEq, Repr

/-- learning-plans.service.ts updateMilestone: write the DTO fields —
    including an isCompleted value supplied by the client, with no check of
    the child courses — then recompute the plan progress. -/
def updateMilestone (p : Plan) (milestoneId : String)
    (dto : UpdateMilestoneDto) : Plan :=
  let p1 := { p with
    milestones := p.milestones.map fun m =>
      if m.id = milestoneId then
        match dto.isCompleted with
        | some b => { m with isCompleted := b }
        | none => m
      else m }
  updatePlanProgress p1

/-- learning-plans.service.ts addMilestone: create the milestone (schema
    defaults: not completed, no courses) and recompute the plan progress. -/
def addMilestone (p : Plan) (newId : String) : Plan :=
  updatePlanProgress
    { p with milestones := p.milestones ++ [⟨newId, false, []⟩] }

/-- learning-plans.service.ts removeMilestone: delete the milestone and
    recompute the plan progress. -/
def removeMilestone (p : Plan) (milestoneId : String) : Plan :=
  updatePlanProgress
    { p with milestones := p.milestones.filter fun m => ¬ m.id = milestoneId }

/-- learning-plans.service.ts updateMilestoneProgress, milestone part: mark
    the milestone completed when it has at least one course and every
    course is completed, otherwise leave it untouched (the plan progress
    update that follows is updatePlanProgress). -/
def updateMilestoneProgress (m : Milestone) : Milestone :=
  let totalCourses := m.courses.length
  let completedCourses := (m.courses.filter fun c => c.isCompleted).length
  if 0 < totalCourses ∧ completedCourses = totalCourses then
    { m with isCompleted := true }
  else m

/-- C6: after each milestone mutation the plan's stored progress equals the
    percentage recomputed from all sibling milestones — 0 when there are
    none, else round(100 * completed / total) — and the recompute is
    idempotent. -/
theorem c6_plan_progress_spec :
    (∀ ms : List Milestone,
      calculateProgress ms =
        if ms.length = 0 then 0
        else jsRound
          (100 * ((ms.filter fun m => m.isCompleted).length : ℚ) /
            (ms.length : ℚ))) ∧
    (∀ (p : Plan) (milestoneId : String) (dto : UpdateMilestoneDto),
      (updateMilestone p milestoneId dto).progress =
        calculateProgress (updateMilestone p milestoneId dto).milestones) ∧
    (∀ (p : Plan) (newId : String),
      (addMilestone p newId).progress =
        calculateProgress (addMilestone p newId).milestones) ∧
    (∀ (p : Plan) (milestoneId : String),
      (removeMilestone p milestoneId).progress =
        calculateProgress (removeMilestone p milestoneId).milestones) ∧
    (∀ p : Plan, updatePlanProgress (updatePlanProgress p) =
      updatePlanProgress p) := by
  refine ⟨fun ms => ?_, fun p i dto => rfl, fun p i => rfl, fun p i => rfl,
    fun p => rfl⟩
  unfold calculateProgress
  split
  · rfl
  · congr 1
    ring

/-- C3 counterexample: updateMilestone writes a client-supplied
    isCompleted = true onto a milestone whose only course is incomplete, so
    the post-state violates the claimed invariant. -/
theorem c3_milestone_invariant_counterexample :
    ((updateMilestone ⟨[⟨"m1", false, [⟨"c1", false⟩]⟩], 0⟩ "m1"
        ⟨some true⟩).milestones.all
      fun m => !m.isCompleted || m.courses.all fun c => c.isCompleted)
      = false := by
  decide

/-- C3 (amended): the derived updater updateMilestoneProgress sets the
    completion flag to true only when the milestone has at least one course
    and every child course is complete, and it preserves the invariant that
    a completed milestone has all courses complete; the direct
    updateMilestone operation, however, writes the client-supplied flag
    without any child-course check. -/
theorem c3_milestone_completion_amended :
    (∀ m : Milestone, (updateMilestoneProgress m).isCompleted = true →
      m.isCompleted = true ∨
        (m.courses ≠ [] ∧ ∀ c ∈ m.courses, c.isCompleted = true)) ∧
    (∀ m : Milestone,
      (m.isCompleted = true → ∀ c ∈ m.courses, c.isCompleted = true) →
      ((updateMilestoneProgress m).isCompleted = true →
        ∀ c ∈ (updateMilestoneProgress m).courses, c.isCompleted = true)) := by
  have hkey : ∀ m : Milestone,
      (0 < m.courses.length ∧
        (m.courses.filter fun c => c.isCompleted).length = m.courses.length) →
      ∀ c ∈ m.courses, c.isCompleted = true := by
    intro m h c hc
    exact List.filter_length_eq_length.mp h.2 c hc
  constructor
  · intro m h
    simp only [updateMilestoneProgress] at h
    split at h
    · next hcond =>
        right
        refine ⟨?_, hkey m hcond⟩
        intro hnil
        rw [hnil] at hcond
        simp at hcond
    · exact Or.inl h
  · intro m hinv h c hc
    simp only [updateMilestoneProgress] at h hc
    split at h
    · next hcond =>
        rw [if_pos hcond] at hc
        exact hkey m hcond c hc
    · next hcond =>
        rw [if_neg hcond] at hc
        exact hinv h c hc

/-- Witness for C3 (amended): a milestone with one completed course is
    marked complete by the derived updater, and all its courses are indeed
    complete. -/
theorem c3_milestone_completion_amended_witness :
    (⟨"m1", false, [⟨"c1", true⟩]⟩ : Milestone).isCompleted = true ∨
      (((⟨"m1", false, [⟨"c1", true⟩]⟩ : Milestone).courses ≠ []) ∧
        ∀ c ∈ (⟨"m1", false, [⟨"c1", true⟩]⟩ : Milestone).courses,
          c.isCompleted = true) :=
  c3_milestone_completion_amended.1 ⟨"m1", false, [⟨"c1", true⟩]⟩ (by decide)

/-- A badge's criteria descriptor, the JSON column interpreted by
    evaluateBadgeCriteria; count is absent when the JSON has no count
    field. -/
structure BadgeCriteria where
  ctype : String
  count : Option Int
deriving DecidableEq, Repr

/-- A badge catalog row. The criteria is absent when the JSON column is
    null. -/
structure Badge where
  id : String
  name : String
  points : Int
  criteria : Option BadgeCriteria
deriving DecidableEq, Repr

/-- The live aggregates evaluateBadgeCriteria queries for one user,
    together with the user's points and the set of already-earned badge
    ids (the userBadge rows). -/
structure UserState where
  completedCourses : Nat
  passedQuizzes : Nat
  streakCount : Int
  quizAttempts : Nat
  plansCreated : Nat
  chatsCreated : Nat
  questionsGenerated : Nat
  points : Int
  earned : List String
deriving DecidableEq, Repr

/-- JavaScript `criteria.count || 1`: an absent or zero count falls back
    to 1. -/
def countOr1 (c : Option Int) : Int :=
  match c with
  | none => 1
  | some n => if n = 0 then 1 else n

/-- gamification.service.ts evaluateBadgeCriteria: dispatch on the
    criteria type string and compare the matching live aggregate against
    the threshold with >=; unknown or empty types evaluate to false. -/
def evaluateBadgeCriteria (s : UserState) (criteria : Option BadgeCriteria) :
    Bool :=
  match criteria with
  | none => false
  | some c =>
      if c.ctype = "" then false
      else if c.ctype = "course_completed" then
        decide ((s.completedCourses : Int) ≥ countOr1 c.count)
      else if c.ctype = "quiz_passed" then
        decide ((s.passedQuizzes : Int) ≥ countOr1 c.count)
      else if c.ctype = "streak" then
        decide (s.streakCount ≥ countOr1 c.count)
      else if c.ctype = "quiz_attempted" then
        decide ((s.quizAttempts : Int) ≥ countOr1 c.count)
      else if c.ctype = "learning_plans_created" then
        decide ((s.plansCreated : Int) ≥ countOr1 c.count)
      else if c.ctype = "chat_sessions_created" then
        decide ((s.chatsCreated : Int) ≥ countOr1 c.count)
      else if c.ctype = "questions_generated" then
        decide ((s.questionsGenerated : Int) ≥ countOr1 c.count)
      else if c.ctype = "points_earned" then
        decide (s.points ≥ countOr1 c.count)
      else false

/-- The aggregate a criteria type is compared against, none for an
    unknown or empty type. -/
def aggregateOf (s : UserState) (ctype : String) : Option Int :=
  if ctype = "" then none
  else if ctype = "course_completed" then some s.completedCourses
  else if ctype = "quiz_passed" then some s.passedQuizzes
  else if ctype = "streak" then some s.streakCount
  else if ctype = "quiz_attempted" then some s.quizAttempts
  else if ctype = "learning_plans_created" then some s.plansCreated
  else if ctype = "chat_sessions_created" then some s.chatsCreated
  else if ctype = "questions_generated" then some s.questionsGenerated
  else if ctype = "points_earned" then some s.points
  else none

/-- gamification.service.ts awardBadge: insert the userBadge row and call
    awardPoints with the badge's point value. -/
def awardBadge (s : UserState) (b : Badge) : UserState :=
  { s with earned := s.earned ++ [b.id], points := s.points + b.points }

/-- The loop of checkAndAwardBadges: ids is the earnedBadgeIds list
    computed once before the loop; each badge not in that list is
    evaluated against the state reached at its turn and awarded on a
    match. -/
def checkAwardLoop (ids : List String) : UserState → List Badge → UserState
  | s, [] => s
  | s, b :: bs =>
      if b.id ∈ ids then checkAwardLoop ids s bs
      else if evaluateBadgeCriteria s b.criteria then
        checkAwardLoop ids (awardBadge s b) bs
      else checkAwardLoop ids s bs

/-- gamification.service.ts checkAndAwardBadges over the badge catalog. -/
def checkAndAwardBadges (s : UserState) (badges : List Badge) : UserState :=
  checkAwardLoop s.earned s badges

theorem checkAwardLoop_append (ids : List String) (bs1 bs2 : List Badge) :
    ∀ s, checkAwardLoop ids s (bs1 ++ bs2) =
      checkAwardLoop ids (checkAwardLoop ids s bs1) bs2 := by
  induction bs1 with
  | nil => intro s; rfl
  | cons b rest ih =>
      intro s
      simp only [List.cons_append, checkAwardLoop]
      split
      · exact ih s
      · split
        · exact ih _
        · exact ih s

theorem checkAwardLoop_mem_earned (ids : List String) (x : String)
    (bs : List Badge) (hx : x ∉ bs.map Badge.id) :
    ∀ s, x ∈ (checkAwardLoop ids s bs).earned ↔ x ∈ s.earned := by
  induction bs with
  | nil => intro s; rfl
  | cons b rest ih =>
      intro s
      have hxb : x ≠ b.id := by
        intro hEq; exact hx (by simp [hEq])
      have hxrest : x ∉ rest.map Badge.id := by
        intro hmem; exact hx (by simp [hmem])
      simp only [checkAwardLoop]
      split
      · exact ih hxrest s
      · split
        · rw [ih hxrest]
          simp [awardBadge, hxb]
        · exact ih hxrest s

set_option maxHeartbeats 1000000 in
/-- C7: a badge not yet held is awarded exactly when the matching live
    aggregate meets the threshold under >= (evaluated at the badge's turn
    in the loop); an award appends the userBadge record and adds the
    badge's point value; and at the boundary a streak-5 badge is granted
    at streakCount 5 but not at streakCount 4. -/
theorem c7_check_and_award_badges_spec :
    (∀ (s : UserState) (c : BadgeCriteria),
      evaluateBadgeCriteria s (some c) = true ↔
        ∃ v, aggregateOf s c.ctype = some v ∧ countOr1 c.count ≤ v) ∧
    (∀ (s : UserState) (bs1 : List Badge) (b : Badge) (bs2 : List Badge),
      b.id ∉ s.earned → b.id ∉ bs1.map Badge.id → b.id ∉ bs2.map Badge.id →
      (b.id ∈ (checkAndAwardBadges s (bs1 ++ b :: bs2)).earned ↔
        evaluateBadgeCriteria (checkAwardLoop s.earned s bs1) b.criteria
          = true)) ∧
    (∀ (s : UserState) (b : Badge) (ids : List String),
      b.id ∉ ids → evaluateBadgeCriteria s b.criteria = true →
      checkAwardLoop ids s [b] = awardBadge s b ∧
      (awardBadge s b).earned = s.earned ++ [b.id] ∧
      (awardBadge s b).points = s.points + b.points) ∧
    (checkAndAwardBadges ⟨3, 2, 5, 4, 1, 1, 0, 10, []⟩
        [⟨"b1", "Streak 5", 25, some ⟨"streak", some 5⟩⟩]).earned = ["b1"] ∧
    (checkAndAwardBadges ⟨3, 2, 5, 4, 1, 1, 0, 10, []⟩
        [⟨"b1", "Streak 5", 25, some ⟨"streak", some 5⟩⟩]).points = 35 ∧
    (checkAndAwardBadges ⟨3, 2, 4, 4, 1, 1, 0, 10, []⟩
        [⟨"b1", "Streak 5", 25, some ⟨"streak", some 5⟩⟩]).earned = [] := by
  refine ⟨fun s c => ?_, fun s bs1 b bs2 h0 h1 h2 => ?_,
    fun s b ids hid heval => ?_, by decide, by decide, by decide⟩
  · simp only [evaluateBadgeCriteria, aggregateOf]
    split_ifs <;> simp
  · unfold checkAndAwardBadges
    rw [checkAwardLoop_append]
    have hs1 : b.id ∈ (checkAwardLoop s.earned s bs1).earned ↔
        b.id ∈ s.earned := checkAwardLoop_mem_earned s.earned b.id bs1 h1 s
    simp only [checkAwardLoop]
    rw [if_neg h0]
    split
    · next heval =>
        rw [heval]
        rw [checkAwardLoop_mem_earned s.earned b.id bs2 h2]
        simp [awardBadge]
    · next heval =>
        simp only [Bool.not_eq_true] at heval
        rw [heval]
        rw [checkAwardLoop_mem_earned s.earned b.id bs2 h2, hs1]
        simp [h0]
  · refine ⟨?_, rfl, rfl⟩
    simp [checkAwardLoop, hid, heval]

/-- Witness for C7: with an empty earned list, a streak badge at the exact
    threshold is awarded by the loop. -/
theorem c7_check_and_award_badges_spec_witness :
    (⟨"b2", "Streak 3", 15, some ⟨"streak", some 3⟩⟩ : Badge).id ∈
      (checkAndAwardBadges ⟨0, 0, 3, 0, 0, 0, 0, 0, []⟩
        ([] ++ (⟨"b2", "Streak 3", 15, some ⟨"streak", some 3⟩⟩ : Badge)
          :: [])).earned ↔
      evaluateBadgeCriteria
        (checkAwardLoop ([] : List String) ⟨0, 0, 3, 0, 0, 0, 0, 0, []⟩ [])
        (some ⟨"streak", some 3⟩) = true :=
  c7_check_and_award_badges_spec.2.1 ⟨0, 0, 3, 0, 0, 0, 0, 0, []⟩ []
    ⟨"b2", "Streak 3", 15, some ⟨"streak", some 3⟩⟩ []
    (by decide) (by decide) (by decide)

/-- A quiz question of a normalized AI-generated course, the fields the
    persistence step writes. -/
structure NormQuestion where
  question : String
  qtype : String
  correctAnswer : String
  points : Int
deriving DecidableEq, Repr

/-- A quiz of a normalized AI-generated course. -/
structure NormQuiz where
  title : String
  passingScore : Int
  questions : List NormQuestion
deriving DecidableEq, Repr

/-- A normalized AI-generated course as handed to the transaction;
    quiz is absent when the AI supplied none. -/
structure NormCourse where
  title : String
  duration : Int
  difficulty : String
  quiz : Option NormQuiz
deriving DecidableEq, Repr

/-- A persisted course row. -/
structure CourseRow where
  id : Nat
  milestoneId : String
  title : String
deriving DecidableEq, Repr

/-- A persisted quiz row, linked to its course. -/
structure QuizRow where
  id : Nat
  courseId : Nat
  title : String
  passingScore : Int
deriving DecidableEq, Repr

/-- A persisted quiz-question row, linked to its quiz. -/
structure QuestionRow where
  id : Nat
  quizId : Nat
  question : String
  points : Int
deriving DecidableEq, Repr

/-- The database state touched by the generation transaction; nextId
    models the id generator. -/
structure DBState where
  nextId : Nat
  courses : List CourseRow
  quizzes : List QuizRow
  questions : List QuestionRow
deriving DecidableEq, Repr

def insertCourse (milestoneId : String) (c : NormCourse) (db : DBState) :
    DBState :=
  { db with
    nextId := db.nextId + 1,
    courses := db.courses ++ [⟨db.nextId, milestoneId, c.title⟩] }

def insertQuiz (courseId : Nat) (quiz : NormQuiz) (db : DBState) : DBState :=
  { db with
    nextId := db.nextId + 1,
    quizzes := db.quizzes ++
      [⟨db.nextId, courseId, quiz.title, quiz.passingScore⟩] }

def insertQuestion (quizId : Nat) (q : NormQuestion) (db : DBState) :
    DBState :=
  { db with
    nextId := db.nextId + 1,
    questions := db.questions ++ [⟨db.nextId, quizId, q.question, q.points⟩] }

def txCreateQuestions (quizId : Nat) (oracle : Nat → Bool) :
    List NormQuestion → DBState → Nat → Except Unit (DBState × Nat)
  | [], db, opIdx => .ok (db, opIdx)
  | q :: rest, db, opIdx =>
      if oracle opIdx then .error ()
      else
        txCreateQuestions quizId oracle rest (insertQuestion quizId q db)
          (opIdx + 1)

def txCreateCourses (milestoneId : String) (oracle : Nat → Bool) :
    List NormCourse → DBState → Nat → Except Unit (DBState × Nat)
  | [], db, opIdx => .ok (db, opIdx)
  | c :: rest, db, opIdx =>
      if oracle opIdx then .error ()
      else
        match c.quiz with
        | none =>
            txCreateCourses milestoneId oracle rest
              (insertCourse milestoneId c db) (opIdx + 1)
        | some quiz =>
            if oracle (opIdx + 1) then .error ()
            else
              match txCreateQuestions (db.nextId + 1) oracle quiz.questions
                  (insertQuiz db.nextId quiz (insertCourse milestoneId c db))
                  (opIdx + 2) with
              | .error e => .error e
              | .ok (db3, opIdx3) =>
                  txCreateCourses milestoneId oracle rest db3 opIdx3

def processAndCreateCourses (milestoneId : String) (oracle : Nat → Bool)
    (db : DBState) (normalized : List NormCourse) : DBState × Bool :=
  match txCreateCourses milestoneId oracle normalized db 0 with
  | .ok (db2, _) => (db2, true)
  | .error _ => (db, false)

theorem txCreateQuestions_ok (quizId : Nat) (oracle : Nat → Bool) :
    ∀ (qs : List NormQuestion) (db : DBState) (opIdx : Nat)
      (db' : DBState) (opIdx' : Nat),
      txCreateQuestions quizId oracle qs db opIdx = .ok (db', opIdx') →
      db'.courses = db.courses ∧ db'.quizzes = db.quizzes := by
  intro qs
  induction qs with
  | nil =>
      intro db opIdx db' opIdx' h
      simp only [txCreateQuestions] at h
      cases h
      exact ⟨rfl, rfl⟩
  | cons q rest ih =>
      intro db opIdx db' opIdx' h
      simp only [txCreateQuestions] at h
      split at h
      · cases h
      · have hres := ih _ _ _ _ h
        exact ⟨hres.1, hres.2⟩

theorem txCreateCourses_quizzes_mono (milestoneId : String)
    (oracle : Nat → Bool) :
    ∀ (cs : List NormCourse) (db : DBState) (opIdx : Nat)
      (db' : DBState) (opIdx' : Nat),
      txCreateCourses milestoneId oracle cs db opIdx = .ok (db', opIdx') →
      ∃ t, db'.quizzes = db.quizzes ++ t := by
  intro cs
  induction cs with
  | nil =>
      intro db opIdx db' opIdx' h
      simp only [txCreateCourses] at h
      cases h
      exact ⟨[], by simp⟩
  | cons c rest ih =>
      intro db opIdx db' opIdx' h
      simp only [txCreateCourses] at h
      split at h
      · cases h
      · split at h
        · next hq =>
            obtain ⟨t, ht⟩ := ih _ _ _ _ h
            exact ⟨t, by simpa [insertCourse] using ht⟩
        · next quiz hq =>
            split at h
            · cases h
            · split at h
              · cases h
              · next db3 opIdx3 hq3 =>
                  obtain ⟨hc3, hz3⟩ :=
                    txCreateQuestions_ok _ oracle _ _ _ _ _ hq3
                  obtain ⟨t, ht⟩ := ih _ _ _ _ h
                  rw [hz3] at ht
                  simp only [insertQuiz, insertCourse] at ht
                  exact ⟨_, by simpa using ht⟩

theorem txCreateCourses_ok (milestoneId : String) (oracle : Nat → Bool) :
    ∀ (cs : List NormCourse) (db : DBState) (opIdx : Nat)
      (db' : DBState) (opIdx' : Nat),
      txCreateCourses milestoneId oracle cs db opIdx = .ok (db', opIdx') →
      ∃ newRows : List CourseRow,
        db'.courses = db.courses ++ newRows ∧
        newRows.length = cs.length ∧
        ∀ p ∈ newRows.zip cs, p.2.quiz.isSome = true →
          ∃ qr ∈ db'.quizzes, qr.courseId = p.1.id := by
  intro cs
  induction cs with
  | nil =>
      intro db opIdx db' opIdx' h
      simp only [txCreateCourses] at h
      cases h
      exact ⟨[], by simp, rfl, by simp⟩
  | cons c rest ih =>
      intro db opIdx db' opIdx' h
      simp only [txCreateCourses] at h
      split at h
      · cases h
      · split at h
        · next hq =>
            obtain ⟨rows, hrows, hlen, hlink⟩ := ih _ _ _ _ h
            refine ⟨⟨db.nextId, milestoneId, c.title⟩ :: rows, ?_, ?_, ?_⟩
            · simpa [insertCourse] using hrows
            · simpa using hlen
            · intro p hp hq'
              rcases List.mem_cons.mp (by simpa using hp) with hp1 | hp2
              · rw [hp1] at hq'
                simp [hq] at hq'
              · exact hlink p hp2 hq'
        · next quiz hq =>
            split at h
            · cases h
            · split at h
              · cases h
              · next db3 opIdx3 hq3 =>
                  obtain ⟨hc3, hz3⟩ :=
                    txCreateQuestions_ok _ oracle _ _ _ _ _ hq3
                  obtain ⟨rows, hrows, hlen, hlink⟩ := ih _ _ _ _ h
                  obtain ⟨t, ht⟩ :=
                    txCreateCourses_quizzes_mono milestoneId oracle
                      _ _ _ _ _ h
                  refine ⟨⟨db.nextId, milestoneId, c.title⟩ :: rows,
                    ?_, ?_, ?_⟩
                  · rw [hrows, hc3]
                    simp [insertQuiz, insertCourse]
                  · simpa using hlen
                  · intro p hp hq'
                    rcases List.mem_cons.mp (by simpa using hp) with hp1 | hp2
                    · refine ⟨⟨db.nextId + 1, db.nextId, quiz.title,
                        quiz.passingScore⟩, ?_, ?_⟩
                      · rw [ht, hz3]
                        simp [insertQuiz, insertCourse]
                      · rw [hp1]
                    · exact hlink p hp2 hq'

theorem c9_generation_transaction_spec (milestoneId : String)
    (oracle : Nat → Bool) (db : DBState) (normalized : List NormCourse) :
    ((processAndCreateCourses milestoneId oracle db normalized).2 = false →
      (processAndCreateCourses milestoneId oracle db normalized).1 = db) ∧
    ((processAndCreateCourses milestoneId oracle db normalized).2 = true →
      ∃ newRows : List CourseRow,
        (processAndCreateCourses milestoneId oracle db
          normalized).1.courses = db.courses ++ newRows ∧
        newRows.length = normalized.length ∧
        ∀ p ∈ newRows.zip normalized, p.2.quiz.isSome = true →
          ∃ qr ∈ (processAndCreateCourses milestoneId oracle db
            normalized).1.quizzes, qr.courseId = p.1.id) := by
  unfold processAndCreateCourses
  cases h : txCreateCourses milestoneId oracle normalized db 0 with
  | error e => exact ⟨fun _ => rfl, fun hcontra => Bool.noConfusion hcontra⟩
  | ok r =>
      refine ⟨fun hcontra => Bool.noConfusion hcontra, fun _ => ?_⟩
      exact txCreateCourses_ok milestoneId oracle normalized db 0 r.1 r.2
        (by rw [h])

theorem c9_generation_transaction_spec_witness :
    (processAndCreateCourses "m1" (fun _ => false) ⟨0, [], [], []⟩
        [⟨"Course 1", 60, "beginner",
          some ⟨"Quiz 1", 70, [⟨"Q?", "short_answer", "A", 1⟩]⟩⟩]).2
      = true ∧
    (∃ newRows : List CourseRow,
      (processAndCreateCourses "m1" (fun _ => false) ⟨0, [], [], []⟩
          [⟨"Course 1", 60, "beginner",
            some ⟨"Quiz 1", 70, [⟨"Q?", "short_answer", "A", 1⟩]⟩⟩]).1.courses
        = ([] : List CourseRow) ++ newRows ∧
      newRows.length = 1 ∧
      ∀ p ∈ newRows.zip
          [(⟨"Course 1", 60, "beginner",
            some ⟨"Quiz 1", 70, [⟨"Q?", "short_answer", "A", 1⟩]⟩⟩ :
              NormCourse)],
        p.2.quiz.isSome = true →
        ∃ qr ∈ (processAndCreateCourses "m1" (fun _ => false) ⟨0, [], [], []⟩
            [⟨"Course 1", 60, "beginner",
              some ⟨"Quiz 1", 70, [⟨"Q?", "short_answer", "A", 1⟩]⟩⟩]).1.quizzes,
          qr.courseId = p.1.id) :=
  And.intro (by decide)
    ((c9_generation_transaction_spec "m1" (fun _ => false) ⟨0, [], [], []⟩
      [⟨"Course 1", 60, "beginner",
        some ⟨"Quiz 1", 70, [⟨"Q?", "short_answer", "A", 1⟩]⟩⟩]).2
      (by decide))

/-- A parsed JSON value. Numbers keep their source lexeme: none of the
    code inspects numeric values of parsed course JSON before Number()
    conversion, so the lexeme is the faithful observable. -/
inductive Json where
  | null
  | bool (b : Bool)
  | num (lexeme : String)
  | str (s : String)
  | arr (elems : List Json)
  | obj (fields : List (String × Json))

/-- JSON insignificant whitespace (RFC 8259): space, tab, LF, CR. -/
def jsonWs (c : Char) : Bool :=
  c = ' ' || c = '\t' || c = '\n' || c = '\r'

def skipWs : List Char → List Char
  | [] => []
  | c :: rest => if jsonWs c then skipWs rest else c :: rest

def hexVal (c : Char) : Option Nat :=
  if '0' ≤ c ∧ c ≤ '9' then some (c.toNat - 48)
  else if 'a' ≤ c ∧ c ≤ 'f' then some (c.toNat - 87)
  else if 'A' ≤ c ∧ c ≤ 'F' then some (c.toNat - 55)
  else none

/-- Parse the body of a JSON string after the opening quote, decoding the
    escape sequences; returns the decoded characters and the input after
    the closing quote. Escaped surrogate code units decode to U+FFFD,
    outside the fragment the repository's data exercises. -/
def parseStringBody : List Char → Option (List Char × List Char)
  | [] => none
  | c :: rest =>
      if c = '"' then some ([], rest)
      else if c = '\\' then
        match rest with
        | [] => none
        | e :: rest2 =>
            if e = '"' ∨ e = '\\' ∨ e = '/' then
              (parseStringBody rest2).map fun p => (e :: p.1, p.2)
            else if e = 'b' then
              (parseStringBody rest2).map fun p => (Char.ofNat 8 :: p.1, p.2)
            else if e = 'f' then
              (parseStringBody rest2).map fun p => (Char.ofNat 12 :: p.1, p.2)
            else if e = 'n' then
              (parseStringBody rest2).map fun p => ('\n' :: p.1, p.2)
            else if e = 'r' then
              (parseStringBody rest2).map fun p => ('\r' :: p.1, p.2)
            else if e = 't' then
              (parseStringBody rest2).map fun p => ('\t' :: p.1, p.2)
            else if e = 'u' then
              match rest2 with
              | h1 :: h2 :: h3 :: h4 :: rest3 =>
                  match hexVal h1, hexVal h2, hexVal h3, hexVal h4 with
                  | some a, some b, some c2, some d =>
                      let n := ((a * 16 + b) * 16 + c2) * 16 + d
                      let ch := if n < 55296 ∨ 57344 ≤ n then Char.ofNat n
                        else Char.ofNat 65533
                      (parseStringBody rest3).map fun p => (ch :: p.1, p.2)
                  | _, _, _, _ => none
              | _ => none
            else none
      else if c.toNat < 32 then none
      else (parseStringBody rest).map fun p => (c :: p.1, p.2)

def isDigit (c : Char) : Bool := '0' ≤ c ∧ c ≤ '9'

def parseFrac (cs : List Char) : Option (List Char × List Char) :=
  match cs with
  | '.' :: rest =>
      let ds := rest.takeWhile isDigit
      if ds.isEmpty then none else some ('.' :: ds, rest.dropWhile isDigit)
  | _ => some ([], cs)

def parseExp (cs : List Char) : Option (List Char × List Char) :=
  match cs with
  | e :: rest =>
      if e = 'e' ∨ e = 'E' then
        let sp : List Char × List Char :=
          match rest with
          | '+' :: r => (['+'], r)
          | '-' :: r => (['-'], r)
          | _ => ([], rest)
        let ds := sp.2.takeWhile isDigit
        if ds.isEmpty then none
        else some (e :: sp.1 ++ ds, sp.2.dropWhile isDigit)
      else some ([], cs)
  | [] => some ([], [])

/-- Lex a JSON number (sign, integer part without leading zeros,
    optional fraction and exponent); returns the lexeme and the rest. -/
def parseNumberLex (cs : List Char) : Option (List Char × List Char) :=
  let sp : List Char × List Char :=
    match cs with
    | '-' :: rest => (['-'], rest)
    | _ => ([], cs)
  match sp.2 with
  | [] => none
  | c :: rest =>
      let intRes : Option (List Char × List Char) :=
        if c = '0' then some (sp.1 ++ [c], rest)
        else if isDigit c then
          some (sp.1 ++ c :: rest.takeWhile isDigit, rest.dropWhile isDigit)
        else none
      match intRes with
      | none => none
      | some (lex1, r1) =>
          match parseFrac r1 with
          | none => none
          | some (lex2, r2) =>
              match parseExp r2 with
              | none => none
              | some (lex3, r3) => some (lex1 ++ lex2 ++ lex3, r3)

def parseLiteral (lit : List Char) (cs : List Char) : Option (List Char) :=
  if lit.isPrefixOf cs then some (cs.drop lit.length) else none

mutual

/-- Parse one JSON value. Fuel bounds the recursion depth; jsonParse
    supplies enough fuel for any input of the given length. -/
def parseValue : Nat → List Char → Option (Json × List Char)
  | 0, _ => none
  | Nat.succ fuel, cs0 =>
      match skipWs cs0 with
      | [] => none
      | c :: rest =>
          if c = '{' then
            match skipWs rest with
            | '}' :: rest2 => some (.obj [], rest2)
            | cs2 => (parseMembers fuel cs2).map fun p => (Json.obj p.1, p.2)
          else if c = '[' then
            match skipWs rest with
            | ']' :: rest2 => some (.arr [], rest2)
            | cs2 => (parseElems fuel cs2).map fun p => (Json.arr p.1, p.2)
          else if c = '"' then
            (parseStringBody rest).map fun p => (Json.str (String.mk p.1), p.2)
          else if c = 't' then
            (parseLiteral ['t', 'r', 'u', 'e'] (c :: rest)).map
              fun r => (Json.bool true, r)
          else if c = 'f' then
            (parseLiteral ['f', 'a', 'l', 's', 'e'] (c :: rest)).map
              fun r => (Json.bool false, r)
          else if c = 'n' then
            (parseLiteral ['n', 'u', 'l', 'l'] (c :: rest)).map
              fun r => (Json.null, r)
          else
            (parseNumberLex (c :: rest)).map
              fun p => (Json.num (String.mk p.1), p.2)

def parseElems : Nat → List Char → Option (List Json × List Char)
  | 0, _ => none
  | Nat.succ fuel, cs =>
      match parseValue fuel cs with
      | none => none
      | some (v, rest) =>
          match skipWs rest with
          | ',' :: rest2 =>
              (parseElems fuel rest2).map fun p => (v :: p.1, p.2)
          | ']' :: rest2 => some ([v], rest2)
          | _ => none

def parseMembers : Nat → List Char → Option (List (String × Json) × List Char)
  | 0, _ => none
  | Nat.succ fuel, cs =>
      match cs with
      | '"' :: rest =>
          match parseStringBody rest with
          | none => none
          | some (key, rest1) =>
              match skipWs rest1 with
              | ':' :: rest2 =>
                  match parseValue fuel rest2 with
                  | none => none
                  | some (v, rest3) =>
                      match skipWs rest3 with
                      | ',' :: rest4 =>
                          (parseMembers fuel (skipWs rest4)).map
                            fun p => ((String.mk key, v) :: p.1, p.2)
                      | '}' :: rest4 =>
                          some ([(String.mk key, v)], rest4)
                      | _ => none
              | _ => none
      | _ => none

end

/-- ECMAScript JSON.parse: parse one value and require only whitespace
    after it; none models a thrown SyntaxError. -/
def jsonParse (s : String) : Option Json :=
  let cs := s.toList
  match parseValue (2 * cs.length + 2) cs with
  | some (v, rest) => if (skipWs rest).isEmpty then some v else none
  | none => none


/-- One line-start application of the code-fence regex
    /^```(json)?/gim: drop a leading fence marker and an optional
    case-insensitive json tag. -/
def dropFenceOpen (l : List Char) : List Char :=
  if "```".toList.isPrefixOf l then
    let r := l.drop 3
    if ['j', 's', 'o', 'n'].isPrefixOf (r.map asciiToLower) then r.drop 4
    else r
  else l

/-- One line-end application of /```$/gim: drop a trailing fence
    marker. -/
def dropFenceClose (l : List Char) : List Char :=
  if "```".toList.isSuffixOf l then l.take (l.length - 3) else l

/-- Split on newline characters, keeping empty segments, as
    String.prototype.split("\n") does. -/
def splitLines : List Char → List (List Char)
  | [] => [[]]
  | c :: rest =>
      if c = '\n' then [] :: splitLines rest
      else
        match splitLines rest with
        | [] => [[c]]
        | l :: ls => (c :: l) :: ls

/-- Rejoin lines with newline separators. -/
def joinLines : List (List Char) → List Char
  | [] => []
  | [l] => l
  | l :: ls => l ++ '\n' :: joinLines ls

/-- The two code-fence replacements of parseCoursesJson: both regexes are
    line-anchored and neither creates nor removes newlines, so applying
    them per line is exact. -/
def stripFences (s : String) : String :=
  String.mk (joinLines
    ((splitLines s.toList).map fun l => dropFenceClose (dropFenceOpen l)))

/-- The first replacement of sanitizeJsonLike,
    /,(\s*[}\x5d])/g → "$1": drop every comma followed by only whitespace
    before a closing brace or bracket. The region matched between a comma
    and its bracket is all whitespace, so no new match can arise inside
    it and a plain left-to-right scan is equivalent to the regex pass. -/
def sanitizeCommas : List Char → List Char
  | [] => []
  | c :: rest =>
      if c = ',' then
        match (rest.dropWhile jsWhitespaceChar).head? with
        | some b =>
            if b = '}' ∨ b = ']' then sanitizeCommas rest
            else c :: sanitizeCommas rest
        | none => c :: sanitizeCommas rest
      else c :: sanitizeCommas rest

/-- The characters that may follow a backslash in a valid JSON escape. -/
def jsonEscapeChar (c : Char) : Bool :=
  c = '\\' || c = '"' || c = '/' || c = 'b' || c = 'f' || c = 'n' ||
  c = 'r' || c = 't' || c = 'u'

/-- The second replacement of sanitizeJsonLike: double every backslash
    not followed by a valid JSON escape character. The regex engine
    advances one position on a failed match, which the one-character
    recursion mirrors. -/
def escapeBackslashes : List Char → List Char
  | [] => []
  | c :: rest =>
      if c = '\\' then
        match rest with
        | d :: _ =>
            if jsonEscapeChar d then c :: escapeBackslashes rest
            else c :: c :: escapeBackslashes rest
        | [] => c :: c :: escapeBackslashes rest
      else c :: escapeBackslashes rest

/-- learning-plans.service.ts sanitizeJsonLike: drop trailing commas,
    then escape bare backslashes. -/
def sanitizeJsonLike (s : String) : String :=
  String.mk (escapeBackslashes (sanitizeCommas s.toList))

/-- String.prototype.indexOf for a single character. -/
def firstIdxOf (c : Char) : List Char → Option Nat
  | [] => none
  | d :: rest =>
      if d = c then some 0 else (firstIdxOf c rest).map (· + 1)

/-- String.prototype.lastIndexOf for a single character. -/
def lastIdxOf (c : Char) (cs : List Char) : Option Nat :=
  (firstIdxOf c cs.reverse).map fun i => cs.length - 1 - i

/-- The bracket-substring extraction of parseCoursesJson: the slice from
    the first opening bracket to the last closing bracket, provided the
    latter lies strictly after the former. -/
def bracketSub (s : String) : Option String :=
  let cs := s.toList
  match firstIdxOf '[' cs, lastIdxOf ']' cs with
  | some st, some en =>
      if st < en then some (String.mk ((cs.drop st).take (en + 1 - st)))
      else none
  | _, _ => none

/-- Array.isArray(parsed) ? parsed : [] — the code returns the empty
    list when a stage parses successfully but not to an array. -/
def arrOfJson : Json → List Json
  | Json.arr xs => xs
  | _ => []

/-- The tail of parseCoursesJson after the bracket-substring attempts:
    strip Markdown code fences and trim, parse, and finally parse the
    sanitized cleaned text; empty list when everything fails. -/
def fenceStage (text : String) : List Json :=
  let cleaned := jsTrim (stripFences text)
  match jsonParse cleaned with
  | some v => arrOfJson v
  | none =>
      match jsonParse (sanitizeJsonLike cleaned) with
      | some v => arrOfJson v
      | none => []

/-- learning-plans.service.ts parseCoursesJson: direct parse, then the
    first-to-last bracket substring raw and sanitized, then the
    fence-stripped text raw and sanitized, else empty. -/
def parseCoursesJson (text : String) : List Json :=
  match jsonParse text with
  | some v => arrOfJson v
  | none =>
      match bracketSub text with
      | some jsonLike =>
          match jsonParse jsonLike with
          | some v => arrOfJson v
          | none =>
              match jsonParse (sanitizeJsonLike jsonLike) with
              | some v => arrOfJson v
              | none => fenceStage text
      | none => fenceStage text


/-- C4: the salvage function tries its strategies in order — direct
    JSON parse; else the bracket substring, raw then sanitized; else the
    fence-stripped text, raw then sanitized; else the empty list — the
    sanitizer drops trailing commas and escapes bare backslashes, and on
    the text "Here are your courses: [{"title":"A"}] Thanks!" the result
    is the one-element array [{"title":"A"}]. -/
theorem c4_parse_courses_json_spec :
    (∀ (t : String) (v : Json), jsonParse t = some v →
      parseCoursesJson t = arrOfJson v) ∧
    (∀ (t s : String) (v : Json), jsonParse t = none →
      bracketSub t = some s → jsonParse s = some v →
      parseCoursesJson t = arrOfJson v) ∧
    (∀ (t s : String) (v : Json), jsonParse t = none →
      bracketSub t = some s → jsonParse s = none →
      jsonParse (sanitizeJsonLike s) = some v →
      parseCoursesJson t = arrOfJson v) ∧
    (∀ t : String, jsonParse t = none →
      (bracketSub t = none ∨ ∃ s, bracketSub t = some s ∧
        jsonParse s = none ∧ jsonParse (sanitizeJsonLike s) = none) →
      parseCoursesJson t = fenceStage t) ∧
    (∀ (t : String) (v : Json), jsonParse (jsTrim (stripFences t)) = some v →
      fenceStage t = arrOfJson v) ∧
    (∀ (t : String) (v : Json), jsonParse (jsTrim (stripFences t)) = none →
      jsonParse (sanitizeJsonLike (jsTrim (stripFences t))) = some v →
      fenceStage t = arrOfJson v) ∧
    (∀ t : String, jsonParse (jsTrim (stripFences t)) = none →
      jsonParse (sanitizeJsonLike (jsTrim (stripFences t))) = none →
      fenceStage t = []) ∧
    sanitizeJsonLike "[1,]" = "[1]" ∧
    sanitizeJsonLike "a\\(b" = "a\\\\(b" ∧
    parseCoursesJson "Here are your courses: [\x7b\"title\":\"A\"\x7d] Thanks!" =
      [Json.obj [("title", Json.str "A")]] := by
  refine ⟨?_, ?_, ?_, ?_, ?_, ?_, ?_, rfl, rfl, rfl⟩
  · intro t v h
    simp only [parseCoursesJson, h]
  · intro t s v h1 h2 h3
    simp only [parseCoursesJson, h1, h2, h3]
  · intro t s v h1 h2 h3 h4
    simp only [parseCoursesJson, h1, h2, h3, h4]
  · intro t h1 h2
    rcases h2 with h2 | ⟨s, h2, h3, h4⟩
    · simp only [parseCoursesJson, h1, h2]
    · simp only [parseCoursesJson, h1, h2, h3, h4]
  · intro t v h
    simp only [fenceStage, h]
  · intro t v h1 h2
    simp only [fenceStage, h1, h2]
  · intro t h1 h2
    simp only [fenceStage, h1, h2]

/-- Witness for C4: the direct-parse stage at the concrete input "[1]". -/
theorem c4_parse_courses_json_spec_witness :
    parseCoursesJson "[1]" = arrOfJson (Json.arr [Json.num "1"]) :=
  c4_parse_courses_json_spec.1 "[1]" (Json.arr [Json.num "1"]) rfl

end StudyBuddy
